import Mathlib

set_option autoImplicit false

/-!
Shallow embedding of the `fastify-proper-limiter` rate-limiter core:
the in-process counter store (`src/stores/LocalStore.js`), the
request-time decision logic of the plugin preHandler
(`src/plugin.js`), the registration-time option merge and validation
(`src/plugin.js`), and the correct reference counter store used by the
plugin test-suite (`LocalTestStore`).

JS `Map` objects are embedded as association lists preserving
insertion order; JS exceptions as an `Except JsErr` result; promise
resolution/rejection of caller-supplied callbacks as an explicit
`CbResult` sum.
-/

/-- JS runtime errors relevant to the embedding: a `ReferenceError`
for reading an undeclared variable, and a thrown/rejected `Error`
identified by its message. -/
inductive JsErr where
  | referenceError (varName : String)
  | thrown (msg : String)
  deriving DecidableEq, Repr

/-- Lookup in a JS `Map` / plain object embedded as an association
list: returns the value at the first occurrence of the key. -/
def mapGet {V : Type} (m : List (String × V)) (k : String) : Option V :=
  match m with
  | [] => none
  | (k₀, v₀) :: rest => if k₀ = k then some v₀ else mapGet rest k

/-- JS `Map.prototype.has` / `in`-style membership test. -/
def mapHas {V : Type} (m : List (String × V)) (k : String) : Bool :=
  (mapGet m k).isSome

/-- JS `Map.prototype.set` / property assignment: overwrite the value
in place when the key is present (keeping its insertion position),
append a fresh entry at the end otherwise. -/
def mapSet {V : Type} (m : List (String × V)) (k : String) (v : V) : List (String × V) :=
  match m with
  | [] => [(k, v)]
  | (k₀, v₀) :: rest => if k₀ = k then (k, v) :: rest else (k₀, v₀) :: mapSet rest k v

/-- JS `Map.prototype.delete`: remove the entry for the key, if any. -/
def mapDelete {V : Type} (m : List (String × V)) (k : String) : List (String × V) :=
  match m with
  | [] => []
  | (k₀, v₀) :: rest => if k₀ = k then rest else (k₀, v₀) :: mapDelete rest k

/-- Counter object created by `LocalStore.increment`:
`{ value, createdAt }` (`createdAt` in milliseconds). -/
structure Counter where
  value : Nat
  createdAt : Nat
  deriving DecidableEq, Repr

/-- State of `LocalStore` (src/stores/LocalStore.js): capacity `max`,
size counter `size` for the current generation, current generation
`cache` and previous generation `oldCache`. The value type is kept
generic, as in the source (`@param {Any} value`). -/
structure LocalStore (V : Type) where
  max : Nat
  size : Nat
  cache : List (String × V)
  oldCache : List (String × V)
  deriving DecidableEq, Repr

/-- Constructor `new LocalStore(max)`: empty store. -/
def LocalStore.mkStore (V : Type) (max : Nat) : LocalStore V :=
  ⟨max, 0, [], []⟩

/-- Operation `_set` of LocalStore (src/stores/LocalStore.js lines 51-66): if the
key is already in the current generation, overwrite; otherwise insert
and bump the size counter, rotating the generations when the counter
reaches `max` (previous generation discarded, current becomes
previous, fresh empty current, size reset to 0). -/
def LocalStore.setItem {V : Type} (s : LocalStore V) (k : String) (v : V) : LocalStore V :=
  if mapHas s.cache k then
    { s with cache := mapSet s.cache k v }
  else
    let cache := mapSet s.cache k v
    let size := s.size + 1
    if size ≥ s.max then
      { s with size := 0, oldCache := cache, cache := [] }
    else
      { s with size := size, cache := cache }

/-- Operation `_get` of LocalStore (src/stores/LocalStore.js lines 30-43): look up
the current generation; on a miss, look up the previous generation
and, when found there, promote the entry (delete from previous,
`_set` into current). Returns the found value together with the
updated store state. -/
def LocalStore.getItem {V : Type} (s : LocalStore V) (k : String) : Option V × LocalStore V :=
  match mapGet s.cache k with
  | some v => (some v, s)
  | none =>
    match mapGet s.oldCache k with
    | some v =>
      let s₁ : LocalStore V := { s with oldCache := mapDelete s.oldCache k }
      (some v, s₁.setItem k v)
    | none => (none, s)

/-- Operation `increment` of LocalStore (src/stores/LocalStore.js lines 74-92),
embedded faithfully to the source: the guard is
`!counter || (now - counter.createdAt) >= ttl * 1000`, but the
variable `now` is never declared anywhere in the module. When no
counter exists, `!counter` short-circuits the disjunction, so the
fresh entry `{ value: 1, createdAt: Date.now() }` is stored and 1 is
returned (`nowMs` stands for the `Date.now()` of the call). When a
counter does exist, evaluating `now` throws
`ReferenceError: now is not defined` before any window arithmetic. -/
def LocalStore.increment (s : LocalStore Counter) (key : String) (ttl nowMs : Nat) :
    Except JsErr (Nat × LocalStore Counter) :=
  match s.getItem key with
  | (none, s₁) => .ok (1, s₁.setItem key ⟨1, nowMs⟩)
  | (some _, _) => .error (.referenceError "now")

/-- An entry is resident in the store when either generation holds it. -/
def LocalStore.findEntry {V : Type} (s : LocalStore V) (k : String) : Option V :=
  match mapGet s.cache k with
  | some v => some v
  | none => mapGet s.oldCache k

/-- Store invariant maintained by `_get` and `_set`: the size counter
tracks the current generation exactly, the current generation stays
strictly below capacity, and the previous generation holds at most
`max` entries. -/
def LocalStore.Inv {V : Type} (s : LocalStore V) : Prop :=
  s.size = s.cache.length ∧ s.cache.length < s.max ∧ s.oldCache.length ≤ s.max

theorem mapHas_false_iff {V : Type} (m : List (String × V)) (k : String) :
    mapHas m k = false ↔ mapGet m k = none := by
  cases hm : mapGet m k <;> simp [mapHas, hm]

theorem mapGet_mapSet_self {V : Type} (m : List (String × V)) (k : String) (v : V) :
    mapGet (mapSet m k v) k = some v := by
  induction m with
  | nil => simp [mapSet, mapGet]
  | cons p rest ih =>
    obtain ⟨k₀, v₀⟩ := p
    by_cases h : k₀ = k
    · subst h
      simp [mapSet, mapGet]
    · simp [mapSet, mapGet, h, ih]

theorem mapGet_mapSet_ne {V : Type} (m : List (String × V)) (k k' : String) (v : V)
    (h : k ≠ k') : mapGet (mapSet m k v) k' = mapGet m k' := by
  induction m with
  | nil => simp [mapSet, mapGet, h]
  | cons p rest ih =>
    obtain ⟨k₀, v₀⟩ := p
    by_cases h₀ : k₀ = k
    · subst h₀
      simp [mapSet, mapGet, h]
    · simp [mapSet, mapGet, h₀, ih]

theorem length_mapSet_present {V : Type} (m : List (String × V)) (k : String) (v : V)
    (h : mapHas m k = true) : (mapSet m k v).length = m.length := by
  induction m with
  | nil => simp [mapHas, mapGet] at h
  | cons p rest ih =>
    obtain ⟨k₀, v₀⟩ := p
    by_cases h₀ : k₀ = k
    · subst h₀
      simp [mapSet]
    · simp [mapHas, mapGet, h₀] at h
      simp [mapSet, h₀, ih (by simpa [mapHas] using h)]

theorem length_mapSet_absent {V : Type} (m : List (String × V)) (k : String) (v : V)
    (h : mapGet m k = none) : (mapSet m k v).length = m.length + 1 := by
  induction m with
  | nil => simp [mapSet]
  | cons p rest ih =>
    obtain ⟨k₀, v₀⟩ := p
    by_cases h₀ : k₀ = k
    · simp [mapGet, h₀] at h
    · simp [mapGet, h₀] at h
      simp [mapSet, h₀, ih h]

theorem length_mapDelete_le {V : Type} (m : List (String × V)) (k : String) :
    (mapDelete m k).length ≤ m.length := by
  induction m with
  | nil => simp [mapDelete]
  | cons p rest ih =>
    obtain ⟨k₀, v₀⟩ := p
    by_cases h₀ : k₀ = k
    · simp [mapDelete, h₀]
    · simp only [mapDelete, h₀, if_false, List.length_cons]
      omega

theorem LocalStore.max_setItem {V : Type} (s : LocalStore V) (k : String) (v : V) :
    (s.setItem k v).max = s.max := by
  simp only [LocalStore.setItem]
  split_ifs <;> rfl

theorem LocalStore.Inv_setItem {V : Type} (s : LocalStore V) (k : String) (v : V)
    (h : s.Inv) : (s.setItem k v).Inv := by
  obtain ⟨h₁, h₂, h₃⟩ := h
  by_cases hc : mapHas s.cache k
  · rw [LocalStore.setItem, if_pos hc]
    refine ⟨?_, ?_, h₃⟩
    · show s.size = (mapSet s.cache k v).length
      rw [length_mapSet_present s.cache k v hc]
      exact h₁
    · show (mapSet s.cache k v).length < s.max
      rw [length_mapSet_present s.cache k v hc]
      exact h₂
  · have hget : mapGet s.cache k = none := (mapHas_false_iff s.cache k).mp (by simpa using hc)
    have hlen : (mapSet s.cache k v).length = s.cache.length + 1 :=
      length_mapSet_absent s.cache k v hget
    rw [LocalStore.setItem, if_neg hc]
    show (if s.size + 1 ≥ s.max then
            ({ s with size := 0, oldCache := mapSet s.cache k v, cache := ([] : List (String × V)) })
          else { s with size := s.size + 1, cache := mapSet s.cache k v }).Inv
    by_cases hful : s.size + 1 ≥ s.max
    · rw [if_pos hful]
      refine ⟨rfl, ?_, ?_⟩
      · show (0 : Nat) < s.max
        omega
      · show (mapSet s.cache k v).length ≤ s.max
        omega
    · rw [if_neg hful]
      refine ⟨?_, ?_, h₃⟩
      · show s.size + 1 = (mapSet s.cache k v).length
        omega
      · show (mapSet s.cache k v).length < s.max
        omega

theorem LocalStore.Inv_getItem {V : Type} (s : LocalStore V) (k : String)
    (h : s.Inv) : ((s.getItem k).2).Inv := by
  obtain ⟨h₁, h₂, h₃⟩ := h
  unfold LocalStore.getItem
  cases hc : mapGet s.cache k with
  | some v => exact ⟨h₁, h₂, h₃⟩
  | none =>
    cases ho : mapGet s.oldCache k with
    | some v =>
      dsimp only
      exact LocalStore.Inv_setItem _ k v
        ⟨h₁, h₂, le_trans (length_mapDelete_le s.oldCache k) h₃⟩
    | none => exact ⟨h₁, h₂, h₃⟩

theorem findEntry_setItem_self {V : Type} (s : LocalStore V) (k : String) (v : V) :
    (s.setItem k v).findEntry k = some v := by
  by_cases hc : mapHas s.cache k
  · rw [LocalStore.setItem, if_pos hc]
    unfold LocalStore.findEntry
    dsimp only
    rw [mapGet_mapSet_self]
  · rw [LocalStore.setItem, if_neg hc]
    show (if s.size + 1 ≥ s.max then ({ s with size := 0, oldCache := mapSet s.cache k v, cache := ([] : List (String × V)) }) else { s with size := s.size + 1, cache := mapSet s.cache k v }).findEntry k = some v
    by_cases hful : s.size + 1 ≥ s.max
    · rw [if_pos hful]
      unfold LocalStore.findEntry
      show (match mapGet ([] : List (String × V)) k with | some w => some w | none => mapGet (mapSet s.cache k v) k) = some v
      rw [mapGet_mapSet_self]
      rfl
    · rw [if_neg hful]
      unfold LocalStore.findEntry
      dsimp only
      rw [mapGet_mapSet_self]

/-- C1: the spec claims N consecutive `increment` calls for a fresh key
within the window return 1, 2, ..., N. The code contradicts its own
test-suite (test/LocalStore.test.js expects the second call to return
2): `increment` reads the undeclared variable `now`, so the second
call throws `ReferenceError: now is not defined` instead of
returning 2. This theorem evaluates the code at the failing input. -/
theorem C1_second_increment_throws_reference_error :
    (LocalStore.mkStore Counter 5000).increment "key" 2 0 =
      .ok (1, ⟨5000, 1, [("key", ⟨1, 0⟩)], []⟩) ∧
    LocalStore.increment ⟨5000, 1, [("key", ⟨1, 0⟩)], []⟩ "key" 2 100 =
      .error (.referenceError "now") := by
  exact ⟨rfl, rfl⟩

/-- C4: the spec claims an `increment` on a key whose window has
expired (in particular with `ttlSeconds = 0`, treated as always
expired) returns 1 and starts a fresh window. The code never reaches
the expiry arithmetic: as soon as a counter entry exists, evaluating
the guard throws `ReferenceError: now is not defined` (the variable
`now` is undeclared), so the call fails instead of returning 1. -/
theorem C4_expired_window_increment_throws :
    (LocalStore.mkStore Counter 5000).increment "key" 0 0 =
      .ok (1, ⟨5000, 1, [("key", ⟨1, 0⟩)], []⟩) ∧
    LocalStore.increment ⟨5000, 1, [("key", ⟨1, 0⟩)], []⟩ "key" 0 5000 =
      .error (.referenceError "now") := by
  exact ⟨rfl, rfl⟩

/-- C10: for a key absent from both generations, `increment` returns
exactly 1 and stores a fresh entry `{ value := 1, createdAt := now }`,
which stays resident in the store; the short-circuit of
`!counter || ...` means the window-expiry arithmetic (and the
undeclared `now` variable) is never consulted on this path. -/
theorem C10_fresh_key_increment (s : LocalStore Counter) (key : String) (ttl nowMs : Nat)
    (hc : mapGet s.cache key = none) (ho : mapGet s.oldCache key = none) :
    s.increment key ttl nowMs = .ok (1, s.setItem key ⟨1, nowMs⟩) ∧
    (s.setItem key ⟨1, nowMs⟩).findEntry key = some ⟨1, nowMs⟩ := by
  constructor
  · rw [LocalStore.increment, LocalStore.getItem, hc, ho]
  · exact findEntry_setItem_self s key ⟨1, nowMs⟩

/-- Witness for C10 at a concrete fresh store. -/
theorem C10_fresh_key_increment_witness :
    (LocalStore.mkStore Counter 5000).increment "k" 60 7 =
      .ok (1, (LocalStore.mkStore Counter 5000).setItem "k" ⟨1, 7⟩) ∧
    ((LocalStore.mkStore Counter 5000).setItem "k" ⟨1, 7⟩).findEntry "k" = some ⟨1, 7⟩ :=
  C10_fresh_key_increment (LocalStore.mkStore Counter 5000) "k" 60 7 rfl rfl

theorem setItem_absent_rotate {V : Type} (s : LocalStore V) (k : String) (v : V)
    (hc : mapGet s.cache k = none) (hful : s.size + 1 ≥ s.max) :
    s.setItem k v = ⟨s.max, 0, [], mapSet s.cache k v⟩ := by
  have hhas : ¬ mapHas s.cache k = true := by simp [mapHas, hc]
  rw [LocalStore.setItem, if_neg hhas]
  show (if s.size + 1 ≥ s.max then ({ s with size := 0, oldCache := mapSet s.cache k v, cache := ([] : List (String × V)) }) else { s with size := s.size + 1, cache := mapSet s.cache k v }) = _
  rw [if_pos hful]

theorem setItem_absent_no_rotate {V : Type} (s : LocalStore V) (k : String) (v : V)
    (hc : mapGet s.cache k = none) (hsm : s.size + 1 < s.max) :
    s.setItem k v = { s with size := s.size + 1, cache := mapSet s.cache k v } := by
  have hhas : ¬ mapHas s.cache k = true := by simp [mapHas, hc]
  rw [LocalStore.setItem, if_neg hhas]
  show (if s.size + 1 ≥ s.max then ({ s with size := 0, oldCache := mapSet s.cache k v, cache := ([] : List (String × V)) }) else { s with size := s.size + 1, cache := mapSet s.cache k v }) = _
  rw [if_neg (by omega : ¬ s.size + 1 ≥ s.max)]

/-- C8 counterexample: a key residing only in the previous generation
is NOT always promoted into the current generation by `get`. With
`max = 1`, inserting one key rotates immediately; the subsequent `get`
retrieves the key from the previous generation, but the promoting
re-insert itself reaches `max` and rotates again, so after the `get`
the key sits in the (new) previous generation and the current
generation does not contain it. -/
theorem C8_promotion_can_skip_current_generation :
    (LocalStore.mkStore String 1).setItem "k" "v" = ⟨1, 0, [], [("k", "v")]⟩ ∧
    LocalStore.getItem ⟨1, 0, [], [("k", "v")]⟩ "k" = (some "v", ⟨1, 0, [], [("k", "v")]⟩) ∧
    mapGet (LocalStore.getItem (⟨1, 0, [], [("k", "v")]⟩ : LocalStore String) "k").2.cache "k" = none := by
  exact ⟨rfl, rfl, rfl⟩

/-- C8 amended: starting from the store invariant (size counter equals
the current-generation size, current generation strictly below `max`,
previous generation at most `max`): a fresh store with positive
capacity satisfies it, `_set` and `_get` preserve it; hence the
current generation never exceeds `max` and the total resident entries
never exceed `2 * max`. A put of an absent key whose insertion makes
the size counter reach `max` rotates exactly as described (previous
generation discarded, current-plus-new-entry becomes previous, fresh
empty current, size 0). A key residing only in the previous
generation is still retrievable via `get`, which removes it from the
previous generation and re-inserts it, leaving it resident; it lands
in the current generation whenever that insertion does not itself
trigger a rotation. -/
theorem C8_generational_store_amended {V : Type} (s : LocalStore V) (k : String) (v : V)
    (h : s.Inv) :
    (∀ m : Nat, 0 < m → (LocalStore.mkStore V m).Inv) ∧
    (s.setItem k v).Inv ∧
    ((s.getItem k).2).Inv ∧
    (s.setItem k v).cache.length < s.max ∧
    (s.setItem k v).cache.length + (s.setItem k v).oldCache.length ≤ 2 * s.max ∧
    (mapGet s.cache k = none → s.size + 1 ≥ s.max →
      s.setItem k v = ⟨s.max, 0, [], mapSet s.cache k v⟩) ∧
    (∀ w, mapGet s.cache k = none → mapGet s.oldCache k = some w →
      (s.getItem k).1 = some w ∧
      ((s.getItem k).2).findEntry k = some w ∧
      (s.size + 1 < s.max → mapGet ((s.getItem k).2).cache k = some w)) := by
  have hset := LocalStore.Inv_setItem s k v h
  have hmax := LocalStore.max_setItem s k v
  refine ⟨?_, hset, LocalStore.Inv_getItem s k h, ?_, ?_, ?_, ?_⟩
  · intro m hm
    exact ⟨rfl, hm, Nat.zero_le m⟩
  · have := hset.2.1
    rw [hmax] at this
    exact this
  · have h₂ := hset.2.1
    have h₃ := hset.2.2
    rw [hmax] at h₂ h₃
    omega
  · intro hc hful
    exact setItem_absent_rotate s k v hc hful
  · intro w hc ho
    have hres : s.getItem k =
        (some w, LocalStore.setItem { s with oldCache := mapDelete s.oldCache k } k w) := by
      rw [LocalStore.getItem, hc, ho]
    refine ⟨by rw [hres], ?_, ?_⟩
    · rw [hres]
      exact findEntry_setItem_self _ k w
    · intro hsm
      rw [hres]
      show mapGet (LocalStore.setItem { s with oldCache := mapDelete s.oldCache k } k w).cache k = some w
      rw [setItem_absent_no_rotate { s with oldCache := mapDelete s.oldCache k } k w hc hsm]
      exact mapGet_mapSet_self s.cache k w

/-- Witness for C8 amended at a concrete store with `max = 2`, one
entry in the previous generation and an empty current generation. -/
theorem C8_generational_store_amended_witness :
    (∀ m : Nat, 0 < m → (LocalStore.mkStore String m).Inv) ∧
    (LocalStore.setItem ⟨2, 0, [], [("k", "w")]⟩ "k" "v").Inv ∧
    ((LocalStore.getItem (⟨2, 0, [], [("k", "w")]⟩ : LocalStore String) "k").2).Inv ∧
    (LocalStore.setItem ⟨2, 0, [], [("k", "w")]⟩ "k" "v").cache.length < 2 ∧
    (LocalStore.setItem ⟨2, 0, [], [("k", "w")]⟩ "k" "v").cache.length + (LocalStore.setItem ⟨2, 0, [], [("k", "w")]⟩ "k" "v").oldCache.length ≤ 2 * 2 ∧
    (mapGet (⟨2, 0, [], [("k", "w")]⟩ : LocalStore String).cache "k" = none → 0 + 1 ≥ 2 →
      LocalStore.setItem ⟨2, 0, [], [("k", "w")]⟩ "k" "v" = ⟨2, 0, [], mapSet [] "k" "v"⟩) ∧
    (∀ w, mapGet (⟨2, 0, [], [("k", "w")]⟩ : LocalStore String).cache "k" = none →
      mapGet (⟨2, 0, [], [("k", "w")]⟩ : LocalStore String).oldCache "k" = some w →
      (LocalStore.getItem (⟨2, 0, [], [("k", "w")]⟩ : LocalStore String) "k").1 = some w ∧
      ((LocalStore.getItem (⟨2, 0, [], [("k", "w")]⟩ : LocalStore String) "k").2).findEntry "k" = some w ∧
      (0 + 1 < 2 → mapGet ((LocalStore.getItem (⟨2, 0, [], [("k", "w")]⟩ : LocalStore String) "k").2).cache "k" = some w)) :=
  C8_generational_store_amended ⟨2, 0, [], [("k", "w")]⟩ "k" "v" ⟨rfl, by decide, by decide⟩

/-- Route identity attached to a resolved config at registration
(`{ method: routeOptions.method, url: routeOptions.url }`). -/
structure RouteConfig where
  method : String
  url : String
  deriving DecidableEq, Repr

/-- Context object passed to `errorResponseGenerator` on a deny
(src/plugin.js lines 278-287): `{ max, per, ...routeConfig }`. The
`max` field is `Option Nat` because a rejecting asynchronous `max`
resolver leaves the JS variable `max` as `undefined` (`none`). The
structure has exactly the fields the source builds; in particular it
has no current-count field. -/
structure ErrorContext where
  max : Option Nat
  per : Nat
  method : String
  url : String
  deriving DecidableEq, Repr

/-- Result of calling a caller-supplied JS callback: it can throw
synchronously, return a plain value, return a promise that resolves,
or return a promise that rejects. -/
inductive CbResult (A : Type) where
  | syncThrow (e : JsErr)
  | syncVal (a : A)
  | asyncOk (a : A)
  | asyncErr (e : JsErr)
  deriving DecidableEq, Repr

/-- The `max` option: a static number or a (possibly async) resolver
function `(request, storeKey) => number`. -/
inductive MaxCfg (Req : Type) where
  | num (n : Nat)
  | resolver (f : Req → String → CbResult Nat)

/-- Final per-route limiter config as consumed by the preHandler
(`errorResponseGenerator` itself is kept abstract: the preHandler
throws whatever it builds from the `ErrorContext`, so the embedding
surfaces the context). -/
structure LimiterConfig (Req : Type) where
  ignore : Option (Req → String → CbResult Bool)
  max : MaxCfg Req
  per : Nat
  skipOnError : Bool
  storeKeyGenerator : Req → RouteConfig → String

/-- Pluggable counting backend: `increment(key, ttl)` returns the
post-increment count or fails, threading a backend state `σ`. -/
structure Store (σ : Type) where
  increment : σ → String → Nat → Except JsErr (Nat × σ)

/-- Observable outcome of one preHandler run: return normally
(allow), throw the object built by `errorResponseGenerator` from the
given context (deny), or let some other exception propagate to
fastify (failure). Each carries the final backend state. -/
inductive Outcome (σ : Type) where
  | allow (s : σ)
  | deny (ctx : ErrorContext) (s : σ)
  | failure (e : JsErr) (s : σ)
  deriving DecidableEq, Repr

/-- Backend state carried by an outcome. -/
def Outcome.finalState {σ : Type} : Outcome σ → σ
  | .allow s => s
  | .deny _ s => s
  | .failure _ s => s

/-- Evaluation of the `ignore` callback (src/plugin.js lines 222-232):
a synchronous throw propagates out of the preHandler; a returned
promise is awaited through `awaitTo`, which swallows a rejection —
the destructuring `[, isWhitelisted]` discards the error, leaving
`isWhitelisted === undefined`, which is falsy, so the request is
treated as not whitelisted. -/
def evalIgnore {Req : Type} (ign : Option (Req → String → CbResult Bool))
    (request : Req) (storeKey : String) : Except JsErr Bool :=
  match ign with
  | none => .ok false
  | some f =>
    match f request storeKey with
    | .syncThrow e => .error e
    | .syncVal b => .ok b
    | .asyncOk b => .ok b
    | .asyncErr _ => .ok false

/-- Resolution of `max` (src/plugin.js lines 262-270): a static number
is used directly; a resolver's synchronous throw propagates; a
returned promise is awaited through `awaitTo`, whose rejection is
swallowed (`[, max]` discards the error), leaving `max = undefined`
(`none`). -/
def resolveMax {Req : Type} (m : MaxCfg Req) (request : Req) (storeKey : String) :
    Except JsErr (Option Nat) :=
  match m with
  | .num n => .ok (some n)
  | .resolver f =>
    match f request storeKey with
    | .syncThrow e => .error e
    | .syncVal n => .ok (some n)
    | .asyncOk n => .ok (some n)
    | .asyncErr _ => .ok none

/-- JS comparison `current <= max` where `max` may be `undefined`:
any comparison with `undefined` is false. -/
def jsLe (current : Nat) (m : Option Nat) : Bool :=
  match m with
  | some n => current ≤ n
  | none => false

/-- The preHandler `properLimiterPreHandler` (src/plugin.js lines 214-288): compute
the store key, evaluate `ignore` (returning early on a truthy
result), call `store.increment` (on error: allow when `skipOnError`,
otherwise rethrow), resolve `max`, and allow iff `current <= max`,
otherwise throw the generated error response built from
`{ max, per, ...routeConfig }`. -/
def properLimiterPreHandler {Req σ : Type} (config : LimiterConfig Req) (store : Store σ)
    (routeConfig : RouteConfig) (request : Req) (s : σ) : Outcome σ :=
  let storeKey := config.storeKeyGenerator request routeConfig
  match evalIgnore config.ignore request storeKey with
  | .error e => .failure e s
  | .ok true => .allow s
  | .ok false =>
    match store.increment s storeKey config.per with
    | .error e => if config.skipOnError then .allow s else .failure e s
    | .ok (current, s₁) =>
      match resolveMax config.max request storeKey with
      | .error e => .failure e s₁
      | .ok maxv =>
        if jsLe current maxv then .allow s₁
        else .deny ⟨maxv, config.per, routeConfig.method, routeConfig.url⟩ s₁

/-- State of the `LocalTestStore` used by the plugin test-suite: two
plain objects `val` (counts) and `ts` (window-start timestamps). -/
structure LocalTestStore where
  val : List (String × Nat)
  ts : List (String × Nat)
  deriving DecidableEq, Repr

/-- Operation `increment` of the test-suite LocalTestStore: reset the
count to 0 and the timestamp to `now` when the key is absent or the
window has expired, then bump and return the count. The expiry
comparison is done in `Int` to mirror JS number subtraction; when
`val` exists but `ts` is somehow absent, `(now - undefined)` is `NaN`
and the comparison is false, so the count is bumped. -/
def LocalTestStore.increment (s : LocalTestStore) (key : String) (ttl nowMs : Nat) :
    Nat × LocalTestStore :=
  match mapGet s.val key, mapGet s.ts key with
  | some v, some t =>
    if (nowMs : Int) - (t : Int) ≥ (ttl : Int) * 1000 then
      (1, ⟨mapSet s.val key 1, mapSet s.ts key nowMs⟩)
    else
      (v + 1, ⟨mapSet s.val key (v + 1), s.ts⟩)
  | some v, none => (v + 1, ⟨mapSet s.val key (v + 1), s.ts⟩)
  | none, _ => (1, ⟨mapSet s.val key 1, mapSet s.ts key nowMs⟩)

/-- The test-suite store wrapped as a counting backend, with all
calls happening at time `nowMs` (milliseconds). -/
def ltsStore (nowMs : Nat) : Store LocalTestStore :=
  ⟨fun s key ttl => .ok (s.increment key ttl nowMs)⟩

/-- Backend state after `n` sequential preHandler runs. -/
def statesAfter {Req σ : Type} (config : LimiterConfig Req) (store : Store σ)
    (routeConfig : RouteConfig) (request : Req) (s : σ) : Nat → σ
  | 0 => s
  | n + 1 =>
    (properLimiterPreHandler config store routeConfig request
      (statesAfter config store routeConfig request s n)).finalState

/-- C7: when the bypass predicate `ignore` yields true — as a plain
return or as a resolved promise — the preHandler returns allow
immediately, leaving the backend state untouched for every backend
(the increment is never invoked). -/
theorem C7_bypass_short_circuit {Req σ : Type} (config : LimiterConfig Req) (store : Store σ)
    (routeConfig : RouteConfig) (request : Req) (s : σ) (f : Req → String → CbResult Bool)
    (hf : config.ignore = some f)
    (ht : f request (config.storeKeyGenerator request routeConfig) = .syncVal true ∨
          f request (config.storeKeyGenerator request routeConfig) = .asyncOk true) :
    properLimiterPreHandler config store routeConfig request s = .allow s := by
  unfold properLimiterPreHandler
  rcases ht with ht | ht <;> simp [evalIgnore, hf, ht]

/-- Witness for C7 with a synchronously-true `ignore` over the
test-suite backend. -/
theorem C7_bypass_short_circuit_witness :
    properLimiterPreHandler
      (⟨some (fun _ _ => CbResult.syncVal true), .num 1, 10, false, fun _ _ => "k"⟩ :
        LimiterConfig Unit)
      (ltsStore 0) ⟨"GET", "/test"⟩ () ⟨[], []⟩ = .allow ⟨[], []⟩ :=
  C7_bypass_short_circuit _ (ltsStore 0) ⟨"GET", "/test"⟩ () ⟨[], []⟩ _ rfl (Or.inl rfl)

/-- C6: when the backend `increment` fails, `skipOnError = true`
yields allow with the state unchanged, and `skipOnError = false`
rethrows the backend error itself, which is a `failure` outcome —
a constructor distinct from every rate-limit `deny`. -/
theorem C6_skip_on_error_policy {Req σ : Type} (store : Store σ) (routeConfig : RouteConfig)
    (request : Req) (s : σ) (e : JsErr) (m : MaxCfg Req) (per : Nat) (sk : Bool)
    (kg : Req → RouteConfig → String)
    (hfail : store.increment s (kg request routeConfig) per = .error e) :
    (sk = true →
      properLimiterPreHandler ⟨none, m, per, sk, kg⟩ store routeConfig request s = .allow s) ∧
    (sk = false →
      properLimiterPreHandler ⟨none, m, per, sk, kg⟩ store routeConfig request s = .failure e s) ∧
    (∀ ctx : ErrorContext, ∀ t : σ, (Outcome.failure e s : Outcome σ) ≠ .deny ctx t) := by
  refine ⟨?_, ?_, ?_⟩
  · intro hsk
    subst hsk
    simp [properLimiterPreHandler, evalIgnore, hfail]
  · intro hsk
    subst hsk
    simp [properLimiterPreHandler, evalIgnore, hfail]
  · intro ctx t hcontra
    exact Outcome.noConfusion hcontra

/-- The always-failing backend of the plugin test-suite
(`TestErrorStore`: `increment` throws `Test "skipOnError"`). -/
def testErrorStore : Store Unit :=
  ⟨fun _ _ _ => .error (.thrown "Test \"skipOnError\"")⟩

/-- Witness for C6 over the always-failing test backend, at both
values of `skipOnError`. -/
theorem C6_skip_on_error_policy_witness :
    properLimiterPreHandler (⟨none, .num 1, 10, true, fun _ _ => "k"⟩ : LimiterConfig Unit)
      testErrorStore ⟨"GET", "/test"⟩ () () = .allow () ∧
    properLimiterPreHandler (⟨none, .num 1, 10, false, fun _ _ => "k"⟩ : LimiterConfig Unit)
      testErrorStore ⟨"GET", "/test"⟩ () () = .failure (.thrown "Test \"skipOnError\"") () :=
  ⟨(C6_skip_on_error_policy testErrorStore ⟨"GET", "/test"⟩ () () (.thrown "Test \"skipOnError\"")
      (.num 1) 10 true (fun _ _ => "k") rfl).1 rfl,
   (C6_skip_on_error_policy testErrorStore ⟨"GET", "/test"⟩ () () (.thrown "Test \"skipOnError\"")
      (.num 1) 10 false (fun _ _ => "k") rfl).2.1 rfl⟩

/-- C3 counterexample: an `ignore` callback whose promise rejects does
NOT propagate out of the preHandler. The rejection is swallowed by
`awaitTo` (the error is discarded by `[, isWhitelisted]`), the request
is treated as not whitelisted, the counter is incremented (quota
consumed) and the verdict is Allow — refuting the claim that any
asynchronous rejection of a caller-supplied callback propagates
uncaught and is never converted into an Allow/Deny verdict. -/
theorem C3_async_rejection_swallowed_cex :
    properLimiterPreHandler
      (⟨some (fun _ _ => CbResult.asyncErr (.thrown "boom")), .num 300, 60, false,
        fun _ _ => "k"⟩ : LimiterConfig Unit)
      (ltsStore 0) ⟨"GET", "/test"⟩ () ⟨[], []⟩ = .allow ⟨[("k", 1)], [("k", 0)]⟩ := by
  rfl

/-- C3 amended: a caller-supplied callback that throws synchronously
(the bypass predicate `ignore` or the dynamic `max` resolver) does
propagate uncaught out of the preHandler. An asynchronous rejection,
however, is swallowed by `awaitTo`: a rejecting `ignore` behaves
exactly as if no `ignore` were configured (counting proceeds), and a
rejecting `max` resolver leaves `max` undefined, so the comparison
`current <= max` is false and the request is denied with
`max = undefined` in the rejection context. -/
theorem C3_callback_failure_propagation_amended {Req σ : Type} (store : Store σ)
    (routeConfig : RouteConfig) (request : Req) (s : σ) (e : JsErr) (m : MaxCfg Req)
    (per : Nat) (sk : Bool) (kg : Req → RouteConfig → String) :
    (properLimiterPreHandler ⟨some (fun _ _ => .syncThrow e), m, per, sk, kg⟩
        store routeConfig request s = .failure e s) ∧
    (∀ c s₁, store.increment s (kg request routeConfig) per = .ok (c, s₁) →
      properLimiterPreHandler ⟨none, .resolver (fun _ _ => .syncThrow e), per, sk, kg⟩
        store routeConfig request s = .failure e s₁) ∧
    (properLimiterPreHandler ⟨some (fun _ _ => .asyncErr e), m, per, sk, kg⟩
        store routeConfig request s =
      properLimiterPreHandler ⟨none, m, per, sk, kg⟩ store routeConfig request s) ∧
    (∀ c s₁, store.increment s (kg request routeConfig) per = .ok (c, s₁) →
      properLimiterPreHandler ⟨none, .resolver (fun _ _ => .asyncErr e), per, sk, kg⟩
        store routeConfig request s =
      .deny ⟨none, per, routeConfig.method, routeConfig.url⟩ s₁) := by
  refine ⟨?_, ?_, ?_, ?_⟩
  · simp [properLimiterPreHandler, evalIgnore]
  · intro c s₁ hinc
    simp [properLimiterPreHandler, evalIgnore, resolveMax, hinc]
  · simp [properLimiterPreHandler, evalIgnore]
  · intro c s₁ hinc
    simp [properLimiterPreHandler, evalIgnore, resolveMax, hinc, jsLe]

/-- Witness for C3 amended over the test-suite backend at concrete
inputs, with the increment hypotheses discharged by evaluation. -/
theorem C3_callback_failure_propagation_amended_witness :
    (properLimiterPreHandler
        (⟨some (fun _ _ => CbResult.syncThrow (.thrown "x")), .num 300, 60, false,
          fun _ _ => "k"⟩ : LimiterConfig Unit)
        (ltsStore 0) ⟨"GET", "/test"⟩ () ⟨[], []⟩ = .failure (.thrown "x") ⟨[], []⟩) ∧
    (properLimiterPreHandler
        (⟨none, .resolver (fun _ _ => CbResult.syncThrow (.thrown "x")), 60, false,
          fun _ _ => "k"⟩ : LimiterConfig Unit)
        (ltsStore 0) ⟨"GET", "/test"⟩ () ⟨[], []⟩ =
      .failure (.thrown "x") ⟨[("k", 1)], [("k", 0)]⟩) ∧
    (properLimiterPreHandler
        (⟨none, .resolver (fun _ _ => CbResult.asyncErr (.thrown "x")), 60, false,
          fun _ _ => "k"⟩ : LimiterConfig Unit)
        (ltsStore 0) ⟨"GET", "/test"⟩ () ⟨[], []⟩ =
      .deny ⟨none, 60, "GET", "/test"⟩ ⟨[("k", 1)], [("k", 0)]⟩) := by
  have h := C3_callback_failure_propagation_amended (ltsStore 0) ⟨"GET", "/test"⟩
    () ⟨[], []⟩ (.thrown "x") (.num 300) 60 false (fun _ _ => "k")
  exact ⟨h.1, h.2.1 1 ⟨[("k", 1)], [("k", 0)]⟩ rfl, h.2.2.2 1 ⟨[("k", 1)], [("k", 0)]⟩ rfl⟩

/-- C2 counterexample: the context handed to the rejection builder
(`errorResponseGenerator`) does not carry the current count. With
`max = 0` every call is denied; two consecutive denials pass the
builder literally identical contexts `{max, per, method, url}` while
the store counts after the calls are 1 and 2 — so the rejection
payload context cannot carry `currentCount = M+1` (the structure the
source builds has no count field at all). -/
theorem C2_deny_context_lacks_current_count :
    properLimiterPreHandler (⟨none, .num 0, 10, false, fun _ _ => "k"⟩ : LimiterConfig Unit)
      (ltsStore 0) ⟨"GET", "/test"⟩ () ⟨[], []⟩ =
      .deny ⟨some 0, 10, "GET", "/test"⟩ ⟨[("k", 1)], [("k", 0)]⟩ ∧
    properLimiterPreHandler (⟨none, .num 0, 10, false, fun _ _ => "k"⟩ : LimiterConfig Unit)
      (ltsStore 0) ⟨"GET", "/test"⟩ () ⟨[("k", 1)], [("k", 0)]⟩ =
      .deny ⟨some 0, 10, "GET", "/test"⟩ ⟨[("k", 2)], [("k", 0)]⟩ ∧
    mapGet [("k", 1)] "k" = some 1 ∧ mapGet [("k", 2)] "k" = some 2 := by
  exact ⟨rfl, rfl, rfl, rfl⟩

theorem preHandler_lts_step_existing {Req : Type} (request : Req) (routeConfig : RouteConfig)
    (M per nowMs : Nat) (key : String) (s : LocalTestStore) (c : Nat)
    (hper : 0 < per) (hv : mapGet s.val key = some c) (ht : mapGet s.ts key = some nowMs) :
    properLimiterPreHandler ⟨none, .num M, per, false, fun _ _ => key⟩ (ltsStore nowMs)
      routeConfig request s =
      if c + 1 ≤ M then .allow ⟨mapSet s.val key (c + 1), s.ts⟩
      else .deny ⟨some M, per, routeConfig.method, routeConfig.url⟩
        ⟨mapSet s.val key (c + 1), s.ts⟩ := by
  have hexp : ¬ ((per : Int) * 1000 ≤ 0) := by
    have hper' : (1 : Int) ≤ (per : Int) := by exact_mod_cast hper
    omega
  by_cases hcm : c + 1 ≤ M <;>
    simp [properLimiterPreHandler, evalIgnore, ltsStore, LocalTestStore.increment, hv, ht,
      hexp, resolveMax, jsLe, hcm]

theorem preHandler_lts_step_fresh {Req : Type} (request : Req) (routeConfig : RouteConfig)
    (M per nowMs : Nat) (key : String) (s : LocalTestStore)
    (hv : mapGet s.val key = none) :
    properLimiterPreHandler ⟨none, .num M, per, false, fun _ _ => key⟩ (ltsStore nowMs)
      routeConfig request s =
      if 1 ≤ M then .allow ⟨mapSet s.val key 1, mapSet s.ts key nowMs⟩
      else .deny ⟨some M, per, routeConfig.method, routeConfig.url⟩
        ⟨mapSet s.val key 1, mapSet s.ts key nowMs⟩ := by
  cases hts : mapGet s.ts key <;> by_cases h1 : 1 ≤ M <;>
    simp [properLimiterPreHandler, evalIgnore, ltsStore, LocalTestStore.increment, hv, hts,
      resolveMax, jsLe, h1]

theorem lts_states_lookup {Req : Type} (request : Req) (routeConfig : RouteConfig)
    (M per nowMs : Nat) (key : String) (hper : 0 < per) (k : Nat) :
    mapGet (statesAfter ⟨none, .num M, per, false, fun _ _ => key⟩ (ltsStore nowMs)
      routeConfig request ⟨[], []⟩ k).val key = (if k = 0 then none else some k) ∧
    mapGet (statesAfter ⟨none, .num M, per, false, fun _ _ => key⟩ (ltsStore nowMs)
      routeConfig request ⟨[], []⟩ k).ts key = (if k = 0 then none else some nowMs) := by
  induction k with
  | zero => exact ⟨rfl, rfl⟩
  | succ k ih =>
    obtain ⟨ihv, iht⟩ := ih
    by_cases hk : k = 0
    · subst hk
      have ihv' : mapGet (statesAfter ⟨none, .num M, per, false, fun _ _ => key⟩
          (ltsStore nowMs) routeConfig request ⟨[], []⟩ 0).val key = none := by
        simpa using ihv
      have hstep := preHandler_lts_step_fresh request routeConfig M per nowMs key _ ihv'
      simp only [statesAfter] at hstep ⊢
      rw [hstep]
      by_cases h1 : 1 ≤ M <;>
        simp [h1, Outcome.finalState, mapGet_mapSet_self]
    · have ihv' : mapGet (statesAfter ⟨none, .num M, per, false, fun _ _ => key⟩
          (ltsStore nowMs) routeConfig request ⟨[], []⟩ k).val key = some k := by
        simpa [hk] using ihv
      have iht' : mapGet (statesAfter ⟨none, .num M, per, false, fun _ _ => key⟩
          (ltsStore nowMs) routeConfig request ⟨[], []⟩ k).ts key = some nowMs := by
        simpa [hk] using iht
      have hstep := preHandler_lts_step_existing request routeConfig M per nowMs key _ k
        hper ihv' iht'
      simp only [statesAfter]
      rw [hstep]
      by_cases hcm : k + 1 ≤ M <;>
        simp [hcm, Outcome.finalState, mapGet_mapSet_self, iht']

/-- C2 amended: with a correct counting backend (the test-suite
store), a static `max = M`, `per > 0` and all calls inside one window,
the first M preHandler runs for a key return allow and the (M+1)th
returns deny. The denial happens because the post-increment count is
`M + 1` (the backend state after `k` calls holds count `k`), and the
rejection builder receives the request plus a context consisting of
`maxAllowed = M`, `windowSeconds = per` and the route method and url —
but no current-count field. -/
theorem C2_decision_threshold_amended {Req : Type} (request : Req) (routeConfig : RouteConfig)
    (M per nowMs : Nat) (key : String) (hper : 0 < per) :
    (∀ k, k < M →
      properLimiterPreHandler ⟨none, .num M, per, false, fun _ _ => key⟩ (ltsStore nowMs)
        routeConfig request
        (statesAfter ⟨none, .num M, per, false, fun _ _ => key⟩ (ltsStore nowMs)
          routeConfig request ⟨[], []⟩ k) =
      .allow (statesAfter ⟨none, .num M, per, false, fun _ _ => key⟩ (ltsStore nowMs)
        routeConfig request ⟨[], []⟩ (k + 1))) ∧
    (properLimiterPreHandler ⟨none, .num M, per, false, fun _ _ => key⟩ (ltsStore nowMs)
      routeConfig request
      (statesAfter ⟨none, .num M, per, false, fun _ _ => key⟩ (ltsStore nowMs)
        routeConfig request ⟨[], []⟩ M) =
    .deny ⟨some M, per, routeConfig.method, routeConfig.url⟩
      (statesAfter ⟨none, .num M, per, false, fun _ _ => key⟩ (ltsStore nowMs)
        routeConfig request ⟨[], []⟩ (M + 1))) ∧
    (∀ k, mapGet (statesAfter ⟨none, .num M, per, false, fun _ _ => key⟩ (ltsStore nowMs)
      routeConfig request ⟨[], []⟩ k).val key = (if k = 0 then none else some k)) := by
  refine ⟨?_, ?_, ?_⟩
  · intro k hk
    obtain ⟨ihv, iht⟩ := lts_states_lookup request routeConfig M per nowMs key hper k
    by_cases hk0 : k = 0
    · subst hk0
      have ihv' : mapGet (statesAfter ⟨none, .num M, per, false, fun _ _ => key⟩
          (ltsStore nowMs) routeConfig request ⟨[], []⟩ 0).val key = none := by
        simpa using ihv
      have hstep := preHandler_lts_step_fresh request routeConfig M per nowMs key _ ihv'
      rw [if_pos (by omega : 1 ≤ M)] at hstep
      simp only [statesAfter] at hstep ⊢
      rw [hstep]
      simp [Outcome.finalState]
    · have ihv' : mapGet (statesAfter ⟨none, .num M, per, false, fun _ _ => key⟩
          (ltsStore nowMs) routeConfig request ⟨[], []⟩ k).val key = some k := by
        simpa [hk0] using ihv
      have iht' : mapGet (statesAfter ⟨none, .num M, per, false, fun _ _ => key⟩
          (ltsStore nowMs) routeConfig request ⟨[], []⟩ k).ts key = some nowMs := by
        simpa [hk0] using iht
      have hstep := preHandler_lts_step_existing request routeConfig M per nowMs key _ k
        hper ihv' iht'
      rw [if_pos (by omega : k + 1 ≤ M)] at hstep
      simp only [statesAfter]
      rw [hstep]
      simp [Outcome.finalState]
  · obtain ⟨ihv, iht⟩ := lts_states_lookup request routeConfig M per nowMs key hper M
    by_cases hM0 : M = 0
    · subst hM0
      have ihv' : mapGet (statesAfter ⟨none, .num 0, per, false, fun _ _ => key⟩
          (ltsStore nowMs) routeConfig request ⟨[], []⟩ 0).val key = none := by
        simpa using ihv
      have hstep := preHandler_lts_step_fresh request routeConfig 0 per nowMs key _ ihv'
      rw [if_neg (by omega : ¬ 1 ≤ 0)] at hstep
      simp only [statesAfter] at hstep ⊢
      rw [hstep]
      simp [Outcome.finalState]
    · have ihv' : mapGet (statesAfter ⟨none, .num M, per, false, fun _ _ => key⟩
          (ltsStore nowMs) routeConfig request ⟨[], []⟩ M).val key = some M := by
        simpa [hM0] using ihv
      have iht' : mapGet (statesAfter ⟨none, .num M, per, false, fun _ _ => key⟩
          (ltsStore nowMs) routeConfig request ⟨[], []⟩ M).ts key = some nowMs := by
        simpa [hM0] using iht
      have hstep := preHandler_lts_step_existing request routeConfig M per nowMs key _ M
        hper ihv' iht'
      rw [if_neg (by omega : ¬ M + 1 ≤ M)] at hstep
      simp only [statesAfter]
      rw [hstep]
      simp [Outcome.finalState]
  · intro k
    exact (lts_states_lookup request routeConfig M per nowMs key hper k).1

/-- Witness for C2 amended at `max = 2`, `per = 10`: allow, allow,
then deny carrying `maxAllowed = 2` (the end-to-end scenario of the
spec). -/
theorem C2_decision_threshold_amended_witness :
    (∀ k, k < 2 →
      properLimiterPreHandler (⟨none, .num 2, 10, false, fun _ _ => "k"⟩ : LimiterConfig Unit)
        (ltsStore 0) ⟨"GET", "/test"⟩ ()
        (statesAfter (⟨none, .num 2, 10, false, fun _ _ => "k"⟩ : LimiterConfig Unit)
          (ltsStore 0) ⟨"GET", "/test"⟩ () ⟨[], []⟩ k) =
      .allow (statesAfter (⟨none, .num 2, 10, false, fun _ _ => "k"⟩ : LimiterConfig Unit)
        (ltsStore 0) ⟨"GET", "/test"⟩ () ⟨[], []⟩ (k + 1))) ∧
    (properLimiterPreHandler (⟨none, .num 2, 10, false, fun _ _ => "k"⟩ : LimiterConfig Unit)
      (ltsStore 0) ⟨"GET", "/test"⟩ ()
      (statesAfter (⟨none, .num 2, 10, false, fun _ _ => "k"⟩ : LimiterConfig Unit)
        (ltsStore 0) ⟨"GET", "/test"⟩ () ⟨[], []⟩ 2) =
    .deny ⟨some 2, 10, "GET", "/test"⟩
      (statesAfter (⟨none, .num 2, 10, false, fun _ _ => "k"⟩ : LimiterConfig Unit)
        (ltsStore 0) ⟨"GET", "/test"⟩ () ⟨[], []⟩ 3)) ∧
    (∀ k, mapGet (statesAfter (⟨none, .num 2, 10, false, fun _ _ => "k"⟩ : LimiterConfig Unit)
      (ltsStore 0) ⟨"GET", "/test"⟩ () ⟨[], []⟩ k).val "k" =
      (if k = 0 then none else some k)) :=
  C2_decision_threshold_amended () ⟨"GET", "/test"⟩ 2 10 0 "k" (by decide)

/-- JS values as far as the registration-time validation distinguishes
them: `undefined`, `null`, numbers, strings, booleans, functions, and
other (truthy) objects such as store instances. -/
inductive JsVal where
  | undef
  | nullv
  | num (n : Int)
  | str (s : String)
  | bool (b : Bool)
  | fn
  | obj
  deriving DecidableEq, Repr

/-- JS truthiness of an embedded value. -/
def jsTruthy : JsVal → Bool
  | .undef => false
  | .nullv => false
  | .num n => n ≠ 0
  | .str s => s ≠ ""
  | .bool b => b
  | .fn => true
  | .obj => true

/-- JS `typeof` of an embedded value. -/
def jsTypeof : JsVal → String
  | .undef => "undefined"
  | .nullv => "object"
  | .num _ => "number"
  | .str _ => "string"
  | .bool _ => "boolean"
  | .fn => "function"
  | .obj => "object"

/-- The merged limiter config record as seen by the registration-time
validation (src/plugin.js lines 137-165), with each option kept as a
raw JS value. -/
structure MergedLimiterOptions where
  store : JsVal
  errorResponseGenerator : JsVal
  ignore : JsVal
  max : JsVal
  per : JsVal
  storeKeyGenerator : JsVal
  deriving DecidableEq, Repr

/-- Registration-time validation chain (src/plugin.js lines 137-165),
returning the message of the first error thrown, or `none` when
registration succeeds. The `per` check is only
`typeof config.per !== 'number'`. -/
def validateLimiterOptions (c : MergedLimiterOptions) : Option String :=
  if ¬ jsTruthy c.store then some "`limiter.store` is required."
  else if jsTypeof c.errorResponseGenerator ≠ "function" then
    some "`limiter.errorResponseGenerator` should be a function."
  else if jsTruthy c.ignore ∧ jsTypeof c.ignore ≠ "function" then
    some "`limiter.ignore` should be a function."
  else if jsTypeof c.max ≠ "number" ∧ jsTypeof c.max ≠ "function" then
    some "`limiter.max` should be a number or a function."
  else if jsTypeof c.per ≠ "number" then some "`limiter.per` should be a number."
  else if jsTypeof c.storeKeyGenerator ≠ "function" then
    some "`limiter.storeKeyGenerator` should be a function."
  else none

/-- C5 counterexample: a configuration with `per = 0` (and likewise
any negative number) passes registration-time validation — no
configuration error is raised for a non-positive `windowSeconds`,
refuting the claim that registration rejects it. -/
theorem C5_nonpositive_per_accepted :
    validateLimiterOptions ⟨.obj, .fn, .nullv, .num 300, .num 0, .fn⟩ = none ∧
    validateLimiterOptions ⟨.obj, .fn, .nullv, .num 300, .num (-5), .fn⟩ = none := by
  exact ⟨rfl, rfl⟩

/-- C5 amended: registration-time validation rejects a `per`
(`windowSeconds`) that is not a number with the configuration error
message, immediately at registration; any number — including zero and
negative values — is accepted (positivity is never checked). -/
theorem C5_per_validation_amended (c : MergedLimiterOptions)
    (hstore : jsTruthy c.store = true)
    (herr : jsTypeof c.errorResponseGenerator = "function")
    (hign : jsTruthy c.ignore = false ∨ jsTypeof c.ignore = "function")
    (hmax : jsTypeof c.max = "number" ∨ jsTypeof c.max = "function")
    (hkg : jsTypeof c.storeKeyGenerator = "function") :
    (jsTypeof c.per ≠ "number" →
      validateLimiterOptions c = some "`limiter.per` should be a number.") ∧
    (∀ p : Int, validateLimiterOptions { c with per := .num p } = none) := by
  constructor
  · intro hper
    rw [validateLimiterOptions]
    rw [if_neg (by simp [hstore])]
    rw [if_neg (by simp [herr])]
    rw [if_neg (by rcases hign with h | h <;> simp [h])]
    rw [if_neg (by rcases hmax with h | h <;> simp [h])]
    rw [if_pos hper]
  · intro p
    rw [validateLimiterOptions]
    rw [if_neg (by simp [hstore])]
    rw [if_neg (by simp [herr])]
    rw [if_neg (by rcases hign with h | h <;> simp [h])]
    rw [if_neg (by rcases hmax with h | h <;> simp [h])]
    rw [if_neg (by simp [jsTypeof])]
    rw [if_neg (by simp [hkg])]

/-- Witness for C5 amended at a concrete configuration record. -/
theorem C5_per_validation_amended_witness :
    (jsTypeof (JsVal.str "10") ≠ "number" →
      validateLimiterOptions ⟨.obj, .fn, .nullv, .num 300, .str "10", .fn⟩ =
        some "`limiter.per` should be a number.") ∧
    (∀ p : Int, validateLimiterOptions ⟨.obj, .fn, .nullv, .num 300, .num p, .fn⟩ = none) :=
  C5_per_validation_amended ⟨.obj, .fn, .nullv, .num 300, .str "10", .fn⟩
    rfl rfl (Or.inl rfl) (Or.inl rfl) rfl

/-- The merge `Object.assign({ ...globalOptions }, limiterOptions)`
(src/plugin.js line 135): copy the global defaults, then set every own
property of the route-level record on the copy in order — including
properties whose value is `undefined` or `null`. -/
def objAssign (target src : List (String × JsVal)) : List (String × JsVal) :=
  src.foldl (fun acc kv => mapSet acc kv.1 kv.2) target

/-- Merge as described by the spec, for comparison with the code's
`Object.assign` merge: the route value wins only when the field is
present and not null/undefined-equivalent; otherwise the global
default is inherited. -/
def mergeSpecGet (g r : List (String × JsVal)) (k : String) : Option JsVal :=
  match mapGet r k with
  | some v => if v = .nullv ∨ v = .undef then mapGet g k else some v
  | none => mapGet g k

theorem mapGet_eq_none_of_not_mem {V : Type} (m : List (String × V)) (k : String)
    (h : k ∉ m.map Prod.fst) : mapGet m k = none := by
  induction m with
  | nil => rfl
  | cons p rest ih =>
    obtain ⟨k₀, v₀⟩ := p
    simp only [List.map_cons, List.mem_cons] at h
    push_neg at h
    have hne : ¬ k₀ = k := fun hc => h.1 hc.symm
    rw [mapGet, if_neg hne, ih h.2]

/-- C9 counterexample: a route-level field that is present with value
`null` overrides the global default instead of inheriting it. With a
global `store` set and a route override `{ store: null }`, the merged
`store` is `null` (not the global store), and registration then fails
with the missing-store configuration error even though the global
default had a store — refuting the claim that a
null/undefined-equivalent route value lets the global default win. -/
theorem C9_null_route_value_overrides :
    mapGet (objAssign [("store", JsVal.obj)] [("store", JsVal.nullv)]) "store" =
      some JsVal.nullv ∧
    mergeSpecGet [("store", JsVal.obj)] [("store", JsVal.nullv)] "store" = some JsVal.obj ∧
    some JsVal.nullv ≠ some JsVal.obj ∧
    validateLimiterOptions ⟨.nullv, .fn, .nullv, .num 300, .num 60, .fn⟩ =
      some "`limiter.store` is required." := by
  exact ⟨rfl, rfl, by decide, rfl⟩

/-- C9 amended: the resolved configuration takes a field from the
route override record whenever the field is present there — whatever
its value, including `null` and `undefined` — and inherits the global
default exactly for the fields absent from the override; no other
field is affected. (Route records are JS object literals, so their
keys are distinct.) -/
theorem C9_merge_presence_wins (g r : List (String × JsVal)) (k : String)
    (hnd : (r.map Prod.fst).Nodup) :
    mapGet (objAssign g r) k =
      (match mapGet r k with
       | some v => some v
       | none => mapGet g k) := by
  induction r generalizing g with
  | nil => rfl
  | cons p rest ih =>
    obtain ⟨k₀, v₀⟩ := p
    simp only [List.map_cons, List.nodup_cons] at hnd
    obtain ⟨hk₀, hrest⟩ := hnd
    have hfold : objAssign g ((k₀, v₀) :: rest) = objAssign (mapSet g k₀ v₀) rest := rfl
    rw [hfold, ih (mapSet g k₀ v₀) hrest]
    by_cases hk : k₀ = k
    · subst hk
      rw [mapGet_eq_none_of_not_mem rest k₀ hk₀]
      rw [show mapGet ((k₀, v₀) :: rest) k₀ = some v₀ from by rw [mapGet, if_pos rfl]]
      exact mapGet_mapSet_self g k₀ v₀
    · rw [show mapGet ((k₀, v₀) :: rest) k = mapGet rest k from by rw [mapGet, if_neg hk]]
      cases hr : mapGet rest k
      · exact mapGet_mapSet_ne g k₀ k v₀ hk
      · rfl

/-- Witness for C9 amended: a concrete global record and route
override; the present field takes the route value, the absent one the
global value. -/
theorem C9_merge_presence_wins_witness :
    mapGet (objAssign [("max", JsVal.num 300), ("per", JsVal.num 60)]
        [("per", JsVal.num 10), ("store", JsVal.nullv)]) "per" =
      (match mapGet [("per", JsVal.num 10), ("store", JsVal.nullv)] "per" with
       | some v => some v
       | none => mapGet [("max", JsVal.num 300), ("per", JsVal.num 60)] "per") :=
  C9_merge_presence_wins [("max", JsVal.num 300), ("per", JsVal.num 60)]
    [("per", JsVal.num 10), ("store", JsVal.nullv)] "per" (by decide)
